import Mathlib

/-!
Shallow embedding of the tcplocust repository (tcplocust.py and
tcpserver.py): a length-prefixed Ping/Pong protocol over TCP, exercised
by a load-generating client (`TcpSocketLocust` / `UserBehavior`) against
a threaded server (`Handler`).

Modelling conventions, used throughout:

* A byte is a `Nat` (values below 256 on a real wire; the arithmetic
  that depends on this is made explicit where needed).
* A raw incoming byte stream is a `List (List Nat)`: the successive
  byte groups that `socket.recv` delivers, so that a theorem
  quantifying over all chunk lists covers every way the transport may
  split the delivered bytes, down to one byte per `recv`.  A real
  `recv` never returns an empty group before end-of-stream, so streams
  of interest have non-empty chunks; an exhausted chunk list models
  end-of-stream (`recv` returning an empty result).
* Wall-clock fields (`response_time`, computed from `time.time()`) are
  real-time observations and are left out of the event model; every
  other keyword argument of the two `events.*.fire` calls is kept.
* `data.decode("utf-8") == "Ping"` (and `!= "Pong"`) is modelled as
  byte-list equality with the unique UTF-8 encoding of the literal:
  UTF-8 decoding is injective where it is defined, so the decoded text
  equals the literal iff the raw bytes equal its encoding, and a
  decode failure raises into exactly the same `except` branch that an
  inequality reaches, so both are covered by the inequality branch.
-/

namespace TcpLocust

/-- Message of the exception raised by both `read_bytes`
implementations when `recv` returns no data before `length` bytes have
been accumulated (tcplocust.py line 65, tcpserver.py line 19).  Note
the trailing period in the source string. -/
def errorReadingBytes : String := "Error reading bytes."

/-- Message of the exception raised on an unexpected payload
(tcplocust.py line 82, tcpserver.py line 35). -/
def unrecognizedProtocol : String := "Unrecognized protocol."

/-- The `request_type` keyword argument of every fire call. -/
def tcpType : String := "tcp"

/-- The `name` keyword argument of the connect fire calls. -/
def connectName : String := "connect"

/-- The `name` keyword argument of the ping-pong fire calls. -/
def pingPongName : String := "ping-pong"

/-- Encoding `n.to_bytes(4, 'little')`: the 4-byte little-endian
encoding of `n` (defined for `n < 2^32`; Python raises `OverflowError`
beyond that). -/
def toBytesLE4 (n : Nat) : List Nat :=
  [n % 256, n / 256 % 256, n / 65536 % 256, n / 16777216 % 256]

/-- Decoding `int.from_bytes(bs, 'little')`. -/
def fromBytesLE (bs : List Nat) : Nat :=
  bs.foldr (fun b acc => b + 256 * acc) 0

/-- UTF-8 bytes of the literal "Ping". -/
def pingBytes : List Nat := [80, 105, 110, 103]

/-- UTF-8 bytes of the literal "Pong". -/
def pongBytes : List Nat := [80, 111, 110, 103]

/-- One frame on the wire: 4-byte little-endian length header followed
by exactly that many payload bytes. -/
def frame (p : List Nat) : List Nat := toBytesLE4 p.length ++ p

/-- The `read_bytes(length)` loop, identical in tcplocust.py lines
57-66 and tcpserver.py lines 11-20:

    data = bytes()
    while len(data) < length:
        chunk = recv(length - len(data))
        if chunk: data += chunk
        else: raise Exception("Error reading bytes.")
    return data

On the chunked-stream model a `recv k` on stream `c :: rest` returns
the whole first group when it has at most `k` bytes (the rest of the
stream stays pending), and exactly `k` bytes of it otherwise (the
remainder of the group stays buffered at the front); `recv` on an
exhausted stream, or an empty delivered group, is the end-of-stream
case that raises.  Each loop iteration is one recursion step; the
result pairs the accumulated bytes with the remaining stream. -/
def read_bytes : List (List Nat) → Nat → Except String (List Nat × List (List Nat))
  | s, 0 => .ok ([], s)
  | [], _ + 1 => .error errorReadingBytes
  | c :: rest, n + 1 =>
    if c = [] then .error errorReadingBytes
    else if c.length ≤ n + 1 then
      match read_bytes rest (n + 1 - c.length) with
      | .ok (d, s') => .ok (c ++ d, s')
      | .error e => .error e
    else .ok (c.take (n + 1), c.drop (n + 1) :: rest)

/-- Reading one frame: 4 header bytes, little-endian decode, then the
declared number of payload bytes (tcplocust.py lines 78-80,
tcpserver.py lines 25-27; the spec's `readFrame()`). -/
def readFrame (s : List (List Nat)) : Except String (List Nat × List (List Nat)) :=
  match read_bytes s 4 with
  | .error e => .error e
  | .ok (header, s1) =>
    match read_bytes s1 (fromBytesLE header) with
    | .error e => .error e
    | .ok (data, s2) => .ok (data, s2)

theorem toBytesLE4_length (n : Nat) : (toBytesLE4 n).length = 4 := rfl

theorem fromBytesLE_toBytesLE4 (n : Nat) (h : n < 4294967296) :
    fromBytesLE (toBytesLE4 n) = n := by
  simp only [fromBytesLE, toBytesLE4, List.foldr_cons, List.foldr_nil]
  omega

theorem read_bytes_zero (s : List (List Nat)) : read_bytes s 0 = .ok ([], s) := by
  cases s <;> rfl

/-- Reading `n` bytes from a stream of non-empty chunks whose total
content has at least `n` bytes succeeds, returns exactly the first `n`
bytes of the content, and leaves a stream of non-empty chunks holding
the rest. -/
theorem read_bytes_ok (s : List (List Nat)) : ∀ n : Nat,
    (∀ c ∈ s, c ≠ []) → n ≤ s.flatten.length →
    ∃ s', read_bytes s n = .ok (s.flatten.take n, s')
      ∧ s'.flatten = s.flatten.drop n ∧ ∀ c ∈ s', c ≠ [] := by
  induction s with
  | nil =>
    intro n _ hn
    simp only [List.flatten_nil, List.length_nil, Nat.le_zero] at hn
    subst hn
    exact ⟨[], rfl, rfl, by simp⟩
  | cons c rest ih =>
    intro n hne hn
    cases n with
    | zero =>
      exact ⟨c :: rest, read_bytes_zero _, by simp, hne⟩
    | succ m =>
      have hc : c ≠ [] := hne c (by simp)
      have hflat : (c :: rest).flatten = c ++ rest.flatten := List.flatten_cons
      by_cases hlen : c.length ≤ m + 1
      · have hrest : m + 1 - c.length ≤ rest.flatten.length := by
          rw [hflat] at hn
          simp only [List.length_append] at hn
          omega
        obtain ⟨s', hs, hf, hne'⟩ := ih (m + 1 - c.length)
          (fun d hd => hne d (List.mem_cons_of_mem _ hd)) hrest
        refine ⟨s', ?_, ?_, hne'⟩
        · rw [hflat, List.take_append_eq_append_take,
            List.take_of_length_le hlen]
          simp only [read_bytes, if_neg hc, if_pos hlen, hs]
        · rw [hf, hflat, List.drop_append_eq_append_drop,
            List.drop_of_length_le hlen]
          simp
      · push_neg at hlen
        have hle : m + 1 ≤ c.length := Nat.le_of_lt hlen
        refine ⟨c.drop (m + 1) :: rest, ?_, ?_, ?_⟩
        · rw [hflat, List.take_append_of_le_length hle]
          simp only [read_bytes, if_neg hc,
            if_neg (by omega : ¬ c.length ≤ m + 1)]
        · rw [List.flatten_cons, hflat, List.drop_append_of_le_length hle]
        · intro d hd
          rcases List.mem_cons.mp hd with h | h
          · subst h
            apply List.ne_nil_of_length_pos
            rw [List.length_drop]
            omega
          · exact hne d (List.mem_cons_of_mem _ h)

/-- Reading `n` bytes from a stream of non-empty chunks that holds
fewer than `n` bytes in total hits end-of-stream and raises the
"Error reading bytes." exception. -/
theorem read_bytes_eos (s : List (List Nat)) : ∀ n : Nat,
    (∀ c ∈ s, c ≠ []) → s.flatten.length < n →
    read_bytes s n = .error errorReadingBytes := by
  induction s with
  | nil =>
    intro n _ hn
    match n, hn with
    | m + 1, _ => rfl
  | cons c rest ih =>
    intro n hne hn
    have hc : c ≠ [] := hne c (by simp)
    have hflat : (c :: rest).flatten = c ++ rest.flatten := List.flatten_cons
    rw [hflat] at hn
    simp only [List.length_append] at hn
    match n with
    | m + 1 =>
      have hlen : c.length ≤ m + 1 := by omega
      have hrest : rest.flatten.length < m + 1 - c.length := by omega
      have hs := ih (m + 1 - c.length)
        (fun d hd => hne d (List.mem_cons_of_mem _ hd)) hrest
      simp only [read_bytes, if_neg hc, if_pos hlen, hs]

/-- A stream of non-empty chunks with no content left is the empty
stream. -/
theorem eq_nil_of_flatten_eq_nil {s : List (List Nat)}
    (hne : ∀ c ∈ s, c ≠ []) (h : s.flatten = []) : s = [] := by
  cases s with
  | nil => rfl
  | cons c rest =>
    exact absurd (List.flatten_eq_nil_iff.mp h c (by simp)) (hne c (by simp))

/-- Reading one frame from a stream of non-empty chunks whose content
starts with the frame for `P` succeeds, returns exactly `P`, and
leaves a stream of non-empty chunks holding the rest of the content. -/
theorem readFrame_ok (P rest : List Nat) (s : List (List Nat))
    (hP : P.length < 4294967296) (hne : ∀ c ∈ s, c ≠ [])
    (hflat : s.flatten = frame P ++ rest) :
    ∃ s2, readFrame s = .ok (P, s2) ∧ s2.flatten = rest ∧ ∀ c ∈ s2, c ≠ [] := by
  have hlen4 : 4 ≤ s.flatten.length := by
    rw [hflat, frame, List.append_assoc, List.length_append, toBytesLE4_length]
    omega
  obtain ⟨s1, h1, hf1, hne1⟩ := read_bytes_ok s 4 hne hlen4
  have hhdr : s.flatten.take 4 = toBytesLE4 P.length := by
    rw [hflat, frame, List.append_assoc]
    exact List.take_left' (toBytesLE4_length _)
  have hrest1 : s1.flatten = P ++ rest := by
    rw [hf1, hflat, frame, List.append_assoc]
    exact List.drop_left' (toBytesLE4_length _)
  have hdec : fromBytesLE (s.flatten.take 4) = P.length := by
    rw [hhdr, fromBytesLE_toBytesLE4 _ hP]
  have hlenP : P.length ≤ s1.flatten.length := by
    rw [hrest1, List.length_append]
    omega
  obtain ⟨s2, h2, hf2, hne2⟩ := read_bytes_ok s1 P.length hne1 hlenP
  have hdata : s1.flatten.take P.length = P := by
    rw [hrest1]
    exact List.take_left _ _
  have hrest2 : s2.flatten = rest := by
    rw [hf2, hrest1]
    exact List.drop_left _ _
  refine ⟨s2, ?_, hrest2, hne2⟩
  simp only [readFrame, h1, hdec, h2, hdata]

/-- An Outcome Event, mirroring the two `events.*.fire` calls of
tcplocust.py.  `request_success.fire` (lines 51-54 and 95-98) passes
`request_type`, `name` and `response_length`; `request_failure.fire`
(lines 42-45 and 86-89) passes `request_type`, `name` and `exception`
and carries no `response_length` argument at all.  The wall-clock
`response_time` argument is omitted from the model. -/
inductive Event where
  | request_success (request_type name : String) (response_length : Nat)
  | request_failure (request_type name : String) (exception : String)
  deriving DecidableEq

/-- The byte-length field an Outcome Event carries: present on a
success event (its `response_length` argument), absent on a failure
event (the `request_failure.fire` calls pass no such argument). -/
def eventLength : Event → Option Nat
  | .request_success _ _ n => some n
  | .request_failure _ _ _ => none

/-- Whether an Outcome Event reports a failure. -/
def isFailureEvent : Event → Bool
  | .request_success _ _ _ => false
  | .request_failure _ _ _ => true

/-- One iteration of the while-loop body of `Handler.handle`
(tcpserver.py lines 22-38): read one frame; if the payload is the
UTF-8 encoding of "Ping", send the "Pong" reply — as two `sendall`
calls, header then payload, lines 32-33 — and go back to awaiting the
next request with the rest of the stream; on any other payload, or on
a read failure, raise into the `except` branch, which writes nothing
and breaks out of the loop (the connection is then torn down).
`none` is that terminating branch; `some (writes, s')` carries the
list of `sendall` byte groups and the stream left for the next
iteration. -/
def handleStep (s : List (List Nat)) :
    Option (List (List Nat) × List (List Nat)) :=
  match readFrame s with
  | .error _ => none
  | .ok (data, s') =>
    if data = pingBytes then
      some ([toBytesLE4 pongBytes.length, pongBytes], s')
    else none

/-- Observable outcome of one `TcpSocketLocust.ping_pong` call
(tcplocust.py lines 68-98): the byte groups passed to `sendall` (one
list entry per call), the Outcome Events fired, whether the socket was
closed, the re-raised exception message if any, and the stream state
left on the socket afterwards (only meaningful when the socket was not
closed; the failure branches discard it). -/
structure PingPongResult where
  writeCalls : List (List Nat)
  events : List Event
  closed : Bool
  raised : Option String
  sockAfter : List (List Nat)

/-- Model of `TcpSocketLocust.ping_pong` (tcplocust.py lines 68-98).
`sendFail = some e` models the underlying `sendall` raising `e` (a
write error): the `except` branch fires one failure event, closes the
socket and re-raises.  Otherwise the two `sendall` calls (lines 74-75)
emit the header and the payload of the "Ping" frame as two separate
byte groups, then the reply frame is read (lines 78-80) and its
payload compared against "Pong" (line 81); a read error or a payload
other than "Pong" takes the same `except` branch, while success fires
one success event with `response_length = len(data)` and leaves the
socket open. -/
def ping_pong (sendFail : Option String) (s : List (List Nat)) :
    PingPongResult :=
  match sendFail with
  | some e =>
    { writeCalls := [], events := [.request_failure tcpType pingPongName e],
      closed := true, raised := some e, sockAfter := [] }
  | none =>
    match readFrame s with
    | .error e =>
      { writeCalls := [toBytesLE4 pingBytes.length, pingBytes],
        events := [.request_failure tcpType pingPongName e],
        closed := true, raised := some e, sockAfter := [] }
    | .ok (data, s2) =>
      if data = pongBytes then
        { writeCalls := [toBytesLE4 pingBytes.length, pingBytes],
          events := [.request_success tcpType pingPongName data.length],
          closed := false, raised := none, sockAfter := s2 }
      else
        { writeCalls := [toBytesLE4 pingBytes.length, pingBytes],
          events := [.request_failure tcpType pingPongName unrecognizedProtocol],
          closed := true, raised := some unrecognizedProtocol,
          sockAfter := [] }

/-- Observable outcome of one `TcpSocketLocust.connect` call: the
Outcome Events fired and the re-raised exception message if any. -/
structure ConnectResult where
  events : List Event
  raised : Option String

/-- Model of `TcpSocketLocust.connect` (tcplocust.py lines 33-55).
The argument is the outcome of the underlying `socket.connect` call:
on an exception `e`, one failure event is fired and `e` is re-raised
(lines 38-46); on success, one success event with
`response_length = 0` is fired (lines 47-55). -/
def connect : Except String Unit → ConnectResult
  | .error e =>
    { events := [.request_failure tcpType connectName e], raised := some e }
  | .ok _ =>
    { events := [.request_success tcpType connectName 0], raised := none }

/-- State of one simulated client (`UserBehavior`): the `running` flag
set in `__init__` (tcplocust.py line 106) and the socket's pending
incoming stream. -/
structure ClientState where
  running : Bool
  sock : List (List Nat)

/-- Model of `UserBehavior.on_start` (tcplocust.py lines 108-113): run
`connect`; if it raises, set `running` to `False`, otherwise leave it
`True` (its `__init__` value).  Returns the state for the task loop
together with the events `connect` fired. -/
def on_start (co : Except String Unit) (sock0 : List (List Nat)) :
    ClientState × List Event :=
  ({ running := (connect co).raised.isNone, sock := sock0 },
    (connect co).events)

/-- Model of one invocation of the `UserBehavior.ping_pong` task
(tcplocust.py lines 115-122): if `running` is set, run one ping-pong
cycle and clear `running` when it raises; otherwise do nothing.
Returns the next state, the byte groups written and the events
fired. -/
def taskStep (sendFail : Option String) (st : ClientState) :
    ClientState × List (List Nat) × List Event :=
  if st.running then
    let r := ping_pong sendFail st.sock
    ({ running := r.raised.isNone, sock := r.sockAfter },
      r.writeCalls, r.events)
  else (st, [], [])

/-- A sequence of task invocations, one entry of `sendFails` per
invocation, accumulating all bytes written and all events fired. -/
def runTasks : List (Option String) → ClientState →
    ClientState × List (List Nat) × List Event
  | [], st => (st, [], [])
  | sf :: sfs, st =>
    let r1 := taskStep sf st
    let r2 := runTasks sfs r1.1
    (r2.1, r1.2.1 ++ r2.2.1, r1.2.2 ++ r2.2.2)

/-- A client whose `running` flag is cleared performs no I/O and fires
no events in any number of subsequent task invocations. -/
theorem runTasks_stopped (sfs : List (Option String)) (st : ClientState)
    (h : st.running = false) : runTasks sfs st = (st, [], []) := by
  induction sfs with
  | nil => rfl
  | cons sf sfs ih =>
    simp only [runTasks, taskStep, h, Bool.false_eq_true, if_false, ih,
      List.append_nil]

/-- In every branch of a ping-pong cycle the socket is closed exactly
when an exception is re-raised: the three `except` paths close and
re-raise, the success path does neither. -/
theorem ping_pong_closed_eq (sf : Option String) (s : List (List Nat)) :
    (ping_pong sf s).closed = (ping_pong sf s).raised.isSome := by
  cases sf with
  | some e => rfl
  | none =>
    cases hr : readFrame s with
    | error e => simp [ping_pong, hr]
    | ok v =>
      obtain ⟨data, s2⟩ := v
      by_cases hd : data = pongBytes
      · simp [ping_pong, hr, hd]
      · simp [ping_pong, hr, hd]

/-- C1: writing the frame for a payload P — the 4-byte little-endian
length header followed by P — and then reading on the peer with
`readFrame` returns exactly P, byte for byte, for every payload length
from 0 up to 2^32 - 1 and for every way the underlying stream splits
the delivered bytes into (non-empty) chunks, including one byte at a
time. -/
theorem C1_frame_roundtrip (P : List Nat) (s : List (List Nat))
    (hP : P.length < 4294967296) (hne : ∀ c ∈ s, c ≠ [])
    (hflat : s.flatten = frame P) :
    readFrame s = .ok (P, []) := by
  obtain ⟨s2, h1, h2, h3⟩ := readFrame_ok P [] s hP hne (by simpa using hflat)
  rw [h1, eq_nil_of_flatten_eq_nil h3 h2]

/-- C1 witness: the "Ping" frame delivered one byte per `recv` is
reassembled to exactly the "Ping" payload. -/
theorem C1_witness :
    readFrame [[4], [0], [0], [0], [80], [105], [110], [103]]
      = .ok (pingBytes, []) :=
  C1_frame_roundtrip pingBytes
    [[4], [0], [0], [0], [80], [105], [110], [103]]
    (by decide) (by decide) (by decide)

/-- C9: calling the read primitive with a required length of 0 returns
the empty byte string with the underlying stream untouched, for every
stream — including the exhausted (closed) one — so it cannot fail: the
accumulation loop is never entered and no `recv` is issued. -/
theorem C9_read_zero_bytes (s : List (List Nat)) :
    read_bytes s 0 = .ok ([], s) :=
  read_bytes_zero s

/-- C3: whenever a required byte count (header or payload) cannot be
met because the stream reaches end-of-stream first, the read fails
with the "Error reading bytes." exception (the spec's ProtocolError;
the source raises a plain Exception whose message ends in a period):
stated for the read primitive at any required count, for `readFrame`
when fewer than 4 header bytes arrive, and for `readFrame` when a
valid header announcing L bytes is followed by fewer than L payload
bytes. -/
theorem C3_eos_error :
    (∀ (s : List (List Nat)) (n : Nat), (∀ c ∈ s, c ≠ []) →
        s.flatten.length < n →
        read_bytes s n = .error errorReadingBytes)
    ∧ (∀ s : List (List Nat), (∀ c ∈ s, c ≠ []) →
        s.flatten.length < 4 →
        readFrame s = .error errorReadingBytes)
    ∧ (∀ (L : Nat) (p : List Nat) (s : List (List Nat)),
        L < 4294967296 → (∀ c ∈ s, c ≠ []) →
        s.flatten = toBytesLE4 L ++ p → p.length < L →
        readFrame s = .error errorReadingBytes) := by
  refine ⟨fun s n h1 h2 => read_bytes_eos s n h1 h2, ?_, ?_⟩
  · intro s h1 h2
    simp only [readFrame, read_bytes_eos s 4 h1 h2]
  · intro L p s hL hne hflat hp
    have hlen4 : 4 ≤ s.flatten.length := by
      rw [hflat, List.length_append, toBytesLE4_length]
      omega
    obtain ⟨s1, h1, hf1, hne1⟩ := read_bytes_ok s 4 hne hlen4
    have hhdr : s.flatten.take 4 = toBytesLE4 L := by
      rw [hflat]
      exact List.take_left' (toBytesLE4_length _)
    have hrest1 : s1.flatten = p := by
      rw [hf1, hflat]
      exact List.drop_left' (toBytesLE4_length _)
    have hdec : fromBytesLE (s.flatten.take 4) = L := by
      rw [hhdr, fromBytesLE_toBytesLE4 _ hL]
    have herr : read_bytes s1 L = .error errorReadingBytes := by
      apply read_bytes_eos s1 L hne1
      rw [hrest1]
      exact hp
    simp only [readFrame, h1, hdec, herr]

/-- C3 witness: a stream that closes after two of five required bytes
makes the read fail with the end-of-stream error. -/
theorem C3_witness :
    read_bytes [[1, 2]] 5 = .error errorReadingBytes :=
  C3_eos_error.1 [[1, 2]] 5 (by decide) (by decide)

/-- C2: for a frame carrying payload P arriving on a server connection
(followed by any further content `rest`), one iteration of the handler
loop replies with exactly one "Pong" frame — written as the header
group then the payload group — and returns to awaiting the next
request on the remaining stream, when P is the UTF-8 encoding of
"Ping"; for every other payload (different text, the empty payload, or
bytes on which UTF-8 decoding fails) it terminates the connection
without writing anything. -/
theorem C2_server_reply (P rest : List Nat) (s : List (List Nat))
    (hP : P.length < 4294967296) (hne : ∀ c ∈ s, c ≠ [])
    (hflat : s.flatten = frame P ++ rest) :
    (P = pingBytes →
      (handleStep s).map (fun r => (r.1, r.2.flatten))
        = some ([toBytesLE4 pongBytes.length, pongBytes], rest))
    ∧ (P ≠ pingBytes → handleStep s = none) := by
  obtain ⟨s2, h1, h2, _⟩ := readFrame_ok P rest s hP hne hflat
  constructor
  · intro hp
    simp only [handleStep, h1, if_pos hp, Option.map_some', h2]
  · intro hp
    simp only [handleStep, h1, if_neg hp]

/-- C2 witness: one "Ping" frame delivered in a single chunk draws
exactly one "Pong" reply frame and leaves the handler awaiting the
next request on an empty stream. -/
theorem C2_witness :
    (handleStep [[4, 0, 0, 0, 80, 105, 110, 103]]).map
        (fun r => (r.1, r.2.flatten))
      = some ([toBytesLE4 pongBytes.length, pongBytes], []) :=
  (C2_server_reply pingBytes [] [[4, 0, 0, 0, 80, 105, 110, 103]]
    (by decide) (by decide) (by decide)).1 rfl

/-- C4: every ping-pong cycle fires exactly one Outcome Event; on a
failure of any kind (write error, read error, or a reply other than
"Pong") it is a failure event carrying the re-raised cause and the
socket is closed, while on success it is a success event with
response_length 4 — the byte length of the "Pong" reply — and the
socket is not closed. -/
theorem C4_ping_pong_outcome (sf : Option String) (s : List (List Nat)) :
    (ping_pong sf s).events
      = (match (ping_pong sf s).raised with
          | some e => [Event.request_failure tcpType pingPongName e]
          | none => [Event.request_success tcpType pingPongName 4])
    ∧ (ping_pong sf s).closed = (ping_pong sf s).raised.isSome := by
  refine ⟨?_, ping_pong_closed_eq sf s⟩
  cases sf with
  | some e => rfl
  | none =>
    cases hr : readFrame s with
    | error e => simp [ping_pong, hr]
    | ok v =>
      obtain ⟨data, s2⟩ := v
      by_cases hd : data = pongBytes
      · subst hd
        simp [ping_pong, hr, pongBytes]
      · simp [ping_pong, hr, hd]

/-- C5: a failed connect attempt fires exactly one failure Outcome
Event carrying the cause and re-raises it; `on_start` then clears the
running flag, after which any number of task invocations performs no
ping-pong attempt — no bytes written, no events fired, no state
change — so the simulated client is permanently stopped.  A
successful connect fires exactly one success Outcome Event with
response_length 0. -/
theorem C5_connect_outcome (e : String) (sock0 : List (List Nat))
    (sfs : List (Option String)) :
    (connect (.error e)).events = [Event.request_failure tcpType connectName e]
    ∧ (connect (.error e)).raised = some e
    ∧ (on_start (.error e) sock0).1.running = false
    ∧ runTasks sfs (on_start (.error e) sock0).1
        = ((on_start (.error e) sock0).1, [], [])
    ∧ (connect (.ok ())).events = [Event.request_success tcpType connectName 0]
    ∧ (connect (.ok ())).raised = none := by
  refine ⟨rfl, rfl, rfl, ?_, rfl, rfl⟩
  exact runTasks_stopped sfs _ rfl

/-- C8: once a ping-pong cycle fails, the task wrapper clears the
running flag, and from that state every subsequent task invocation
performs no I/O at all: no bytes are written, no events are fired and
the state never changes — no retry, no reconnection. -/
theorem C8_stop_after_failure (sf : Option String) (st : ClientState)
    (sfs : List (Option String)) (h : st.running = true)
    (hfail : (ping_pong sf st.sock).raised.isSome = true) :
    (taskStep sf st).1.running = false
    ∧ runTasks sfs (taskStep sf st).1 = ((taskStep sf st).1, [], []) := by
  cases hr : (ping_pong sf st.sock).raised with
  | none => rw [hr] at hfail; simp at hfail
  | some e =>
    have h1 : (taskStep sf st).1.running = false := by
      simp [taskStep, h, hr]
    exact ⟨h1, runTasks_stopped sfs _ h1⟩

/-- C8 witness: a cycle that fails at once (the stream is already at
end-of-stream) stops the client, and two further task invocations
change nothing and produce nothing. -/
theorem C8_witness :
    (taskStep none ⟨true, []⟩).1.running = false
    ∧ runTasks [none, none] (taskStep none ⟨true, []⟩).1
        = ((taskStep none ⟨true, []⟩).1, [], []) :=
  C8_stop_after_failure none ⟨true, []⟩ [none, none] rfl (by decide)

/-- C10: a successful ping-pong cycle leaves the connection state
unchanged apart from the bytes exchanged: the socket is not closed and
not replaced — the same connection continues with exactly the reply
frame's bytes consumed from its pending stream — and the socket is
closed precisely on the failure (re-raise) paths. -/
theorem C10_connection_preserved (sf : Option String)
    (s : List (List Nat)) (rest : List Nat)
    (hne : ∀ c ∈ s, c ≠ []) (hflat : s.flatten = frame pongBytes ++ rest) :
    ((ping_pong none s).raised = none
      ∧ (ping_pong none s).closed = false
      ∧ (ping_pong none s).sockAfter.flatten = rest)
    ∧ (ping_pong sf s).closed = (ping_pong sf s).raised.isSome := by
  obtain ⟨s2, h1, h2, _⟩ := readFrame_ok pongBytes rest s (by decide) hne hflat
  refine ⟨⟨?_, ?_, ?_⟩, ping_pong_closed_eq sf s⟩
  · simp [ping_pong, h1]
  · simp [ping_pong, h1]
  · simp [ping_pong, h1, h2]

/-- C10 witness: a "Pong" reply delivered in one chunk is consumed in
full, the socket stays open, and with a failing send the socket is
closed exactly because an error is re-raised. -/
theorem C10_witness :
    (((ping_pong none [[4, 0, 0, 0, 80, 111, 110, 103]]).raised = none
      ∧ (ping_pong none [[4, 0, 0, 0, 80, 111, 110, 103]]).closed = false
      ∧ (ping_pong none [[4, 0, 0, 0, 80, 111, 110, 103]]).sockAfter.flatten
          = [])
    ∧ (ping_pong (some errorReadingBytes)
          [[4, 0, 0, 0, 80, 111, 110, 103]]).closed
        = (ping_pong (some errorReadingBytes)
          [[4, 0, 0, 0, 80, 111, 110, 103]]).raised.isSome) :=
  C10_connection_preserved (some errorReadingBytes)
    [[4, 0, 0, 0, 80, 111, 110, 103]] [] (by decide) (by decide)

/-- C6 counterexample: at a concrete successful cycle the client
issues the frame as two separate `sendall` calls — first the 4-byte
header group, then the payload group — not as a single write
operation, so the claim that header and payload are not issued as
separate writes fails on the code. -/
theorem C6_counterexample :
    (ping_pong none [[4, 0, 0, 0, 80, 111, 110, 103]]).writeCalls
        = [[4, 0, 0, 0], [80, 105, 110, 103]]
    ∧ (ping_pong none [[4, 0, 0, 0, 80, 111, 110, 103]]).writeCalls.length
        ≠ 1 := by
  decide

/-- C6 amended: each frame write issues the 4-byte little-endian
header and the payload as two consecutive `sendall` calls on the
underlying stream — tcplocust.py lines 74-75 on the client,
tcpserver.py lines 32-33 on the server — and the bytes of the two
calls concatenate to exactly the frame. -/
theorem C6_two_write_calls (s : List (List Nat))
    (w s' : List (List Nat)) (hs : handleStep s = some (w, s')) :
    ((ping_pong none s).writeCalls = [toBytesLE4 pingBytes.length, pingBytes]
      ∧ (ping_pong none s).writeCalls.flatten = frame pingBytes)
    ∧ (w = [toBytesLE4 pongBytes.length, pongBytes]
      ∧ w.flatten = frame pongBytes) := by
  have hw : (ping_pong none s).writeCalls
      = [toBytesLE4 pingBytes.length, pingBytes] := by
    cases hr : readFrame s with
    | error e => simp [ping_pong, hr]
    | ok v =>
      obtain ⟨data, s2⟩ := v
      by_cases hd : data = pongBytes
      · simp [ping_pong, hr, hd]
      · simp [ping_pong, hr, hd]
  have hserver : w = [toBytesLE4 pongBytes.length, pongBytes] := by
    cases hr : readFrame s with
    | error e => simp [handleStep, hr] at hs
    | ok v =>
      obtain ⟨data, s2⟩ := v
      by_cases hd : data = pingBytes
      · simp only [handleStep, hr, if_pos hd, Option.some.injEq,
          Prod.mk.injEq] at hs
        exact hs.1.symm
      · simp [handleStep, hr, hd] at hs
  refine ⟨⟨hw, ?_⟩, hserver, ?_⟩
  · rw [hw]
    decide
  · rw [hserver]
    decide

/-- C6 witness: on a concrete exchange the client's two write calls
are the "Ping" header and payload and the server's two write calls are
the "Pong" header and payload, each pair concatenating to the exact
frame. -/
theorem C6_witness :
    (((ping_pong none [[4, 0, 0, 0, 80, 105, 110, 103]]).writeCalls
        = [toBytesLE4 pingBytes.length, pingBytes]
      ∧ (ping_pong none [[4, 0, 0, 0, 80, 105, 110, 103]]).writeCalls.flatten
        = frame pingBytes)
    ∧ (([toBytesLE4 pongBytes.length, pongBytes] : List (List Nat))
        = [toBytesLE4 pongBytes.length, pongBytes]
      ∧ ([toBytesLE4 pongBytes.length, pongBytes] : List (List Nat)).flatten
        = frame pongBytes)) :=
  C6_two_write_calls [[4, 0, 0, 0, 80, 105, 110, 103]]
    [toBytesLE4 pongBytes.length, pongBytes] [] (by decide)

/-- C7 counterexample: a failed ping-pong cycle (end-of-stream before
the reply) fires a failure Outcome Event that carries no
received-byte-length field at all — the `request_failure.fire` call
passes no `response_length` argument — rather than a length of 0, so
the claim that every Outcome Event carries a byte length fails on the
code. -/
theorem C7_counterexample :
    (ping_pong none []).events
        = [Event.request_failure tcpType pingPongName errorReadingBytes]
    ∧ eventLength
        (Event.request_failure tcpType pingPongName errorReadingBytes)
      = none := by
  decide

/-- C7 amended: an Outcome Event fired by connect or ping-pong carries
a received-byte length exactly when it reports success — 0 for
connect, the reply payload length (4) for ping-pong — while a failure
event carries the error detail and no length field. -/
theorem C7_event_lengths (co : Except String Unit) (sf : Option String)
    (s : List (List Nat)) :
    ((connect co).events.all fun e =>
        eventLength e == if isFailureEvent e then none else some 0) = true
    ∧ ((ping_pong sf s).events.all fun e =>
        eventLength e == if isFailureEvent e then none else some 4) = true := by
  constructor
  · cases co with
    | error e => rfl
    | ok u => rfl
  · cases sf with
    | some e => rfl
    | none =>
      cases hr : readFrame s with
      | error e =>
        simp [ping_pong, hr, eventLength, isFailureEvent]
      | ok v =>
        obtain ⟨data, s2⟩ := v
        by_cases hd : data = pongBytes
        · subst hd
          simp [ping_pong, hr, eventLength, isFailureEvent, pongBytes]
        · simp [ping_pong, hr, hd, eventLength, isFailureEvent]
